import Mathlib

/-!
Verification of `pydantic_ai/_depends/utils.py` (a callable-invocation and
resource-lifecycle bridge vendored from fast_depends, in the style of FastAPI's
concurrency helpers).

The Python module is embedded shallowly:

* A synchronous context manager (the object produced by
  `contextmanager(call)(...)`) is a pair of an enter step — which returns a
  value or raises — and an exit step, which receives the optional exception
  info `(type(e), e, None)` and either returns a truthiness value (the
  "handled" signal) or raises a new exception.
* Python exceptions are modelled by `Exc`: a name together with the one static
  fact the control flow of the source depends on, whether the exception class
  is a subclass of `Exception` (`isException = true`) or only of
  `BaseException` (`isException = false`, e.g. `CancelledError`).
* `contextmanager_in_threadpool` is an `asynccontextmanager`; we embed it as a
  function from the wrapped context manager and the behaviour of the protected
  region (the code between `__aenter__` and `__aexit__` of the resulting async
  context manager) to the final outcome observed by the caller together with
  a trace of the execution-context events that occurred: which steps ran, and
  on which executor (general `anyio.to_thread` pool versus the fresh
  `CapacityLimiter(1)` created for the exit step).
* `asynccontextmanager` semantics used by the embedding: the generator body up
  to `yield` runs in `__aenter__` (a generator that returns without yielding
  makes `__aenter__` raise `RuntimeError`); an exception raised by the
  protected region is thrown into the generator at the `yield` point; if the
  generator swallows it the exception is suppressed, if the generator re-raises
  the same exception it propagates unchanged, and if the generator raises a
  different exception that one propagates instead.
-/

/-- A Python exception value: its class name, and whether that class is a
subclass of `Exception` (as opposed to a bare `BaseException` such as
`CancelledError`). Only the latter fact drives control flow in the source,
via the `except Exception` clause. -/
structure Exc where
  name : String
  isException : Bool
deriving DecidableEq, Repr

/-- The `RuntimeError` raised by `contextlib` when a generator-based context
manager returns without ever yielding (so `__aenter__` has no value). -/
def runtimeErrorDidNotYield : Exc := { name := "RuntimeError", isException := true }

/-- Which `anyio` capacity limiter a worker submission used: the default
limiter of the general `to_thread` pool, or a freshly constructed
`CapacityLimiter(n)`. -/
inductive Limiter where
  | default
  | capacity (n : Nat)
deriving DecidableEq, Repr

/-- The execution context a step ran on: a worker thread governed by a
limiter, or the cooperative (event-loop) context itself. -/
inductive ExecCtx where
  | worker (lim : Limiter)
  | cooperative
deriving DecidableEq, Repr

/-- Outcome of calling the exit step `cm.__exit__(ty, e, tb)`: it returns a
value whose truthiness is the "handled" signal, or it raises an exception of
its own. -/
inductive ExitOutcome where
  | returns (handled : Bool)
  | raises (e : Exc)
deriving DecidableEq, Repr

/-- A synchronous context manager, i.e. the object `contextmanager(call)(..)`
passed to `contextmanager_in_threadpool`: an enter step that produces a value
or raises, and an exit step given the optional active exception. -/
structure SyncCM (α : Type) where
  enter : Except Exc α
  exit : Option Exc → ExitOutcome

/-- Behaviour of the protected region (the code executed between acquire and
release while the async context manager is open): it completes normally or
raises. A raised `e` with `e.isException = false` models a `BaseException`
such as a cancellation being delivered inside the region. -/
inductive BodyOutcome where
  | normal
  | raises (e : Exc)
deriving DecidableEq, Repr

/-- Trace events of one run of `contextmanager_in_threadpool`: the enter step
ran on the given context, the protected region ran with the yielded value, the
exit step ran on the given context with the given exception info. -/
inductive Event (α : Type) where
  | enterStep (ctx : ExecCtx)
  | protectedRegion (v : α)
  | exitStep (ctx : ExecCtx) (excInfo : Option Exc)
deriving DecidableEq, Repr

/-- `run_in_threadpool` submits its callable to the general `anyio.to_thread`
pool, i.e. the worker context with the default limiter. -/
def runInThreadpoolCtx : ExecCtx := ExecCtx.worker Limiter.default

/-- Embedding of `contextmanager_in_threadpool(cm)` driven by a protected
region `body`. Source control flow:

    exit_limiter = anyio.CapacityLimiter(1)
    try:
        yield await run_in_threadpool(cm.__enter__)
    except Exception as e:
        ok = bool(await anyio.to_thread.run_sync(cm.__exit__, type(e), e, None, limiter=exit_limiter))
        if not ok:
            raise e
    else:
        await anyio.to_thread.run_sync(cm.__exit__, None, None, None, limiter=exit_limiter)

Note that the `await run_in_threadpool(cm.__enter__)` sits inside the `try`,
so an `Exception` raised by the enter step is also routed to the `except`
branch; and that a `BaseException` that is not an `Exception` matches neither
branch, so the exit step does not run for it. Returns the outcome the caller
of the async context manager observes, and the event trace. -/
def contextmanager_in_threadpool {α : Type} (cm : SyncCM α) (body : α → BodyOutcome) :
    Except Exc Unit × List (Event α) :=
  let exitLimiter := Limiter.capacity 1
  let exitCtx := ExecCtx.worker exitLimiter
  match cm.enter with
  | Except.error e =>
    let tr := [Event.enterStep runInThreadpoolCtx]
    if e.isException then
      match cm.exit (some e) with
      | ExitOutcome.returns handled =>
        let tr := tr ++ [Event.exitStep exitCtx (some e)]
        if handled then
          (Except.error runtimeErrorDidNotYield, tr)
        else
          (Except.error e, tr)
      | ExitOutcome.raises e2 =>
        (Except.error e2, tr ++ [Event.exitStep exitCtx (some e)])
    else
      (Except.error e, tr)
  | Except.ok v =>
    let tr := [Event.enterStep runInThreadpoolCtx, Event.protectedRegion v]
    match body v with
    | BodyOutcome.normal =>
      match cm.exit none with
      | ExitOutcome.returns _ =>
        (Except.ok (), tr ++ [Event.exitStep exitCtx none])
      | ExitOutcome.raises e2 =>
        (Except.error e2, tr ++ [Event.exitStep exitCtx none])
    | BodyOutcome.raises e =>
      if e.isException then
        match cm.exit (some e) with
        | ExitOutcome.returns handled =>
          let tr := tr ++ [Event.exitStep exitCtx (some e)]
          if handled then
            (Except.ok (), tr)
          else
            (Except.error e, tr)
        | ExitOutcome.raises e2 =>
          (Except.error e2, tr ++ [Event.exitStep exitCtx (some e)])
      else
        (Except.error e, tr)

/-- Does a trace contain an exit-step event at all? -/
def hasExitStep {α : Type} (tr : List (Event α)) : Bool :=
  tr.any fun ev =>
    match ev with
    | Event.exitStep _ _ => true
    | _ => false

example :
    contextmanager_in_threadpool
      { enter := Except.ok 42, exit := fun _ => ExitOutcome.raises { name := "KeyError", isException := true } }
      (fun _ => BodyOutcome.normal) =
    (Except.error { name := "KeyError", isException := true },
      [Event.enterStep runInThreadpoolCtx, Event.protectedRegion 42,
        Event.exitStep (ExecCtx.worker (Limiter.capacity 1)) none]) := rfl

/-!
Callable shape classification (`is_coroutine_callable`, `is_gen_callable`,
`is_async_gen_callable`) works by static introspection: `inspect.isclass`,
`asyncio.iscoroutinefunction` / `inspect.isgeneratorfunction` /
`inspect.isasyncgenfunction` applied to the callable itself and to its
`__call__` attribute. We embed a callable's static classification facts as a
record of those introspection results.
-/

/-- The static introspection facts of a Python callable that the classifiers
in the source consult: the results of `inspect.isclass(call)`,
`asyncio.iscoroutinefunction(call)`, `inspect.isgeneratorfunction(call)`,
`inspect.isasyncgenfunction(call)`, and of the same questions asked of
`getattr(call, '__call__', None)`. -/
structure PyCallable where
  isClass : Bool
  isCoroutineFunction : Bool
  isGeneratorFunction : Bool
  isAsyncGenFunction : Bool
  dunderCallIsCoroutineFunction : Bool
  dunderCallIsGeneratorFunction : Bool
  dunderCallIsAsyncGenFunction : Bool
deriving DecidableEq, Repr

/-- Embedding of `is_coroutine_callable`: classes are rejected first, then the
callable itself is checked, then its `__call__` attribute. -/
def is_coroutine_callable (c : PyCallable) : Bool :=
  if c.isClass then
    false
  else if c.isCoroutineFunction then
    true
  else
    c.dunderCallIsCoroutineFunction

/-- Embedding of `is_gen_callable`: the callable itself, then its `__call__`
attribute. -/
def is_gen_callable (c : PyCallable) : Bool :=
  if c.isGeneratorFunction then
    true
  else
    c.dunderCallIsGeneratorFunction

/-- Embedding of `is_async_gen_callable`: the callable itself, then its
`__call__` attribute. -/
def is_async_gen_callable (c : PyCallable) : Bool :=
  if c.isAsyncGenFunction then
    true
  else
    c.dunderCallIsAsyncGenFunction

/-- Which execution path `run_async` dispatched the call to: awaited directly
on the cooperative context, or submitted to the worker thread pool. -/
inductive DispatchPath where
  | direct
  | threadpool
deriving DecidableEq, Repr

/-- A callable together with its dynamic behaviour: applying it to positional
and keyword arguments yields a result or raises. The same behaviour function
models both `func(*args, **kwargs)` awaited directly and the worker-thread
execution of the same call. -/
structure Invocable (α β : Type) where
  cls : PyCallable
  behavior : List α → List (String × α) → Except Exc β

/-- Embedding of `run_in_threadpool`: `functools.partial(func, **kwargs)` is
applied to `*args` by `anyio.to_thread.run_sync`, so the net effect is
`func(*args, **kwargs)`, with the result returned and any exception re-raised
unchanged in the calling context. -/
def run_in_threadpool {α β : Type} (f : List α → List (String × α) → Except Exc β)
    (args : List α) (kwargs : List (String × α)) : Except Exc β :=
  f args kwargs

/-- Embedding of `run_async`: classify the callable with
`is_coroutine_callable`; a coroutine callable is called and awaited directly,
anything else goes through `run_in_threadpool`. Returns the path taken and
the outcome the caller observes. -/
def run_async {α β : Type} (c : Invocable α β) (args : List α)
    (kwargs : List (String × α)) : DispatchPath × Except Exc β :=
  if is_coroutine_callable c.cls then
    (DispatchPath.direct, c.behavior args kwargs)
  else
    (DispatchPath.threadpool, run_in_threadpool c.behavior args kwargs)

/-- The positional and keyword arguments a generator-resource callable was
actually invoked with when its context manager was constructed. -/
structure InvokedWith (α : Type) where
  args : List α
  kwargs : List (String × α)
deriving DecidableEq, Repr

/-- Embedding of the argument flow of `solve_generator_async`: for a blocking
generator the source builds `contextmanager(call)(**sub_values)` — only the
keyword arguments — while for an async generator it builds
`asynccontextmanager(call)(*sub_args, **sub_values)`; any other callable hits
the `AssertionError` branch (`none`). The value returned is what the
underlying callable is invoked with. -/
def solve_generator_async {α : Type} (sub_args : List α) (sub_values : List (String × α))
    (call : PyCallable) : Option (InvokedWith α) :=
  if is_gen_callable call then
    some { args := [], kwargs := sub_values }
  else if is_async_gen_callable call then
    some { args := sub_args, kwargs := sub_values }
  else
    none

/-- Embedding of the argument flow of `solve_generator_sync`: the source
builds `contextmanager(call)(*sub_args, **sub_values)`, passing both. -/
def solve_generator_sync {α : Type} (sub_args : List α) (sub_values : List (String × α))
    (_call : PyCallable) : InvokedWith α :=
  { args := sub_args, kwargs := sub_values }

/-!
Signature resolution (`get_evaluated_signature`, `collect_outer_stack_locals`,
`get_typed_annotation`). Type annotations are embedded as `Ann`: a direct
(already resolved) type object, a deferred reference (a string annotation,
which the source wraps in `ForwardRef` and evaluates leniently with pydantic's
`eval_type` — for a bare name that is Python's `locals`-then-`globals` lookup,
left as the unresolved `ForwardRef` on `NameError`), or a reference to a
mutable `Annotated[...]` object living on a heap. The heap makes the in-place
assignment `annotation.__origin__, annotation.__metadata__ = ...` observable:
`get_typed_annotation` on an `Annotated` object overwrites the object's fields
and returns the same reference rather than a fresh object. Python's
`get_args` of an `Annotated` object returns its base type followed by its
metadata elements, always a non-empty tuple. The recursion is fuelled because
heap references admit cycles; all theorems supply sufficient fuel.
-/

/-- A type annotation value as seen by `get_typed_annotation`. -/
inductive Ann where
  | direct (ty : String)
  | deferred (name : String)
  | annotatedRef (id : Nat)
deriving DecidableEq, Repr

/-- The mutable state of an `Annotated[...]` object: its `__origin__` (the
base type) and its `__metadata__` (the metadata tuple). -/
structure AnnObj where
  origin : Ann
  metadata : List Ann
deriving DecidableEq, Repr

/-- The heap of `Annotated` objects, addressed by object identity. -/
abbrev Heap := List (Nat × AnnObj)

/-- A namespace mapping identifiers to the objects they are bound to. -/
abbrev Bindings := List (String × Ann)

/-- First-match lookup in a namespace. -/
def lookupB : Bindings → String → Option Ann
  | [], _ => none
  | (k, v) :: rest, n => if k == n then some v else lookupB rest n

/-- Read the `Annotated` object at a heap address. -/
def heapGet : Heap → Nat → Option AnnObj
  | [], _ => none
  | (k, o) :: rest, id => if k == id then some o else heapGet rest id

/-- Overwrite the `Annotated` object at a heap address in place. -/
def heapSet : Heap → Nat → AnnObj → Heap
  | [], _, _ => []
  | (k, o) :: rest, id, obj =>
    if k == id then (k, obj) :: rest else (k, o) :: heapSet rest id obj

/-- Evaluation of a deferred (string) reference that is a bare name, as
performed by `eval_type(ForwardRef(annotation), globalns, locals,
lenient=True)`: Python name resolution looks in `locals` first, then
`globalns`; an unresolvable name is left as the unresolved reference rather
than raising (lenient mode). -/
def evalName (n : String) (globalns localns : Bindings) : Ann :=
  match lookupB localns n with
  | some v => v
  | none =>
    match lookupB globalns n with
    | some v => v
    | none => Ann.deferred n

/-- Resolve each element of a list in order with the resolver `f`, threading
the heap left to right — the state flow of the list comprehension
`[get_typed_annotation(x, globalns, locals) for x in args]`. -/
def solveListWith (f : Ann → Heap → Ann × Heap) : List Ann → Heap → List Ann × Heap
  | [], h => ([], h)
  | a :: rest, h =>
    let p := f a h
    let q := solveListWith f rest p.2
    (p.1 :: q.1, q.2)

/-- Embedding of `get_typed_annotation(annotation, globalns, locals)`: a
string annotation becomes a `ForwardRef` and is evaluated leniently; then, if
the (evaluated) annotation is an `Annotated[...]` object with arguments, each
argument is resolved recursively and the object's `__origin__` and
`__metadata__` are overwritten in place with the solved base and metadata,
the same object being returned. Returns the resulting annotation and heap. -/
def getTypedAnn : Nat → Ann → Bindings → Bindings → Heap → Ann × Heap
  | 0, a, _, _, h => (a, h)
  | Nat.succ fuel, a, globalns, localns, h =>
    let a1 :=
      match a with
      | Ann.deferred n => evalName n globalns localns
      | other => other
    match a1 with
    | Ann.annotatedRef id =>
      match heapGet h id with
      | some obj =>
        match solveListWith (fun x hh => getTypedAnn fuel x globalns localns hh)
            (obj.origin :: obj.metadata) h with
        | (o2 :: meta2, h2) =>
          (Ann.annotatedRef id, heapSet h2 id { origin := o2, metadata := meta2 })
        | ([], h2) => (Ann.annotatedRef id, h2)
      | none => (Ann.annotatedRef id, h)
    | other => (other, h)

/-- The list comprehension `[get_typed_annotation(x, globalns, locals) for x
in args]` as run by `get_typed_annotation` on the arguments of an `Annotated`
object. -/
def solveAnnList (fuel : Nat) (as : List Ann) (globalns localns : Bindings) (h : Heap) :
    List Ann × Heap :=
  solveListWith (fun x hh => getTypedAnn fuel x globalns localns hh) as h

/-- Does `cs` start with `pat`? Helper for Python's substring test. -/
def charListStartsWith : List Char → List Char → Bool
  | _, [] => true
  | [], _ :: _ => false
  | c :: cs, p :: ps => if c == p then charListStartsWith cs ps else false

/-- Python's `pat in s` on strings: substring containment. -/
def strContains (s pat : String) : Bool :=
  s.toList.tails.any fun t => charListStartsWith t pat.toList

/-- A live stack frame as consulted by `collect_outer_stack_locals`: the
filename of its code object (`frame.f_code.co_filename`) and its local
bindings (`frame.f_locals`). -/
structure Frame where
  filename : String
  locals : Bindings
deriving Repr

/-- Python `dict.update`: entries of `newEntries` override entries of `acc`
under first-match lookup. -/
def dictUpdate (acc newEntries : Bindings) : Bindings :=
  newEntries ++ acc

/-- Embedding of `collect_outer_stack_locals`. The stack is given innermost
frame first, as produced by starting at `inspect.currentframe()` and following
`f_back`; the source keeps every frame whose code filename does not contain
the substring `fast_depends`, then iterates over the kept frames reversed
(outermost first), `update`-ing one locals dict, so an inner frame's bindings
override an outer frame's on collision. -/
def collect_outer_stack_locals (stack : List Frame) : Bindings :=
  let frames := stack.filter fun f => !(strContains f.filename "fast_depends")
  frames.reverse.foldl (fun acc f => dictUpdate acc f.locals) []

/-- Modelled from the spec: a frame belongs to this core's own internals when
its code object originates from this core's module files, which live under
the `pydantic_ai/_depends/` path (identification by origin/filename, not by
the name of any symbol). Used to state what frames the spec says must be
skipped. -/
def belongs_to_core (f : Frame) : Bool :=
  strContains f.filename "pydantic_ai/_depends"

/-- One parameter of a signature as rebuilt by `get_evaluated_signature`:
`inspect.Parameter(name, kind, default, annotation)`. Kind and default are
carried through unchanged, so they are opaque data here. -/
structure Param where
  name : String
  kind : Nat
  dflt : Option Ann
  ann : Ann
deriving DecidableEq, Repr

/-- An `inspect.Signature`: ordered parameters plus a return annotation. -/
structure Signature where
  params : List Param
  retAnn : Ann
deriving DecidableEq, Repr

/-- The list comprehension over `signature.parameters.values()` in
`get_evaluated_signature`: each parameter is rebuilt with its annotation
resolved by `get_typed_annotation`, in order, threading the heap. -/
def resolveParams : Nat → List Param → Bindings → Bindings → Heap → List Param × Heap
  | _, [], _, _, h => ([], h)
  | fuel, p :: rest, globalns, localns, h =>
    let a := getTypedAnn fuel p.ann globalns localns h
    let q := resolveParams fuel rest globalns localns a.2
    ({ p with ann := a.1 } :: q.1, q.2)

/-- Embedding of `get_evaluated_signature(call)`. The Python introspection
steps are embedded as data: `inspect.signature(call)` is the `sig` argument,
and `getattr(inspect.unwrap(call), '__globals__', {})` — the declaration-site
globals of the innermost unwrapped implementation — is the `globalns`
argument. The locals come from `collect_outer_stack_locals()` on the live
stack; every parameter annotation and the return annotation are resolved by
`get_typed_annotation` against those namespaces. -/
def get_evaluated_signature (fuel : Nat) (stack : List Frame) (sig : Signature)
    (globalns : Bindings) (h : Heap) : Signature × Heap :=
  let localns := collect_outer_stack_locals stack
  let ps := resolveParams fuel sig.params globalns localns h
  let ra := getTypedAnn fuel sig.retAnn globalns localns ps.2
  ({ params := ps.1, retAnn := ra.1 }, ra.2)

/-!
Concrete fixtures used by counterexamples and witnesses.
-/

/-- An ordinary `Exception`-class exception. -/
def valueErrorExc : Exc := { name := "ValueError", isException := true }

/-- A `BaseException` that is not an `Exception`: the cancellation exception
delivered when the enclosing scope is cancelled. -/
def cancelledExc : Exc := { name := "CancelledError", isException := false }

/-- A context manager that acquires successfully and whose exit step reports
the exception handled. -/
def cmSwallow : SyncCM Nat :=
  { enter := Except.ok 42, exit := fun _ => ExitOutcome.returns true }

/-- A protected region that raises a `ValueError`. -/
def bodyRaisesValueError : Nat → BodyOutcome := fun _ => BodyOutcome.raises valueErrorExc

/-- A context manager whose enter step raises a `ValueError` and whose exit
step does not suppress. -/
def cmEnterFails : SyncCM Nat :=
  { enter := Except.error valueErrorExc, exit := fun _ => ExitOutcome.returns false }

/-- A protected region that completes normally. -/
def bodyNormal : Nat → BodyOutcome := fun _ => BodyOutcome.normal

/-- A context manager that acquires successfully and whose exit step does not
suppress. -/
def cmPlain : SyncCM Nat :=
  { enter := Except.ok 7, exit := fun _ => ExitOutcome.returns false }

/-- A protected region into which a cancellation (`BaseException`) is
thrown. -/
def bodyCancelled : Nat → BodyOutcome := fun _ => BodyOutcome.raises cancelledExc

/-- C1: when the protected region of a blocking-generator resource raises an
(`Exception`-class) exception, the exit step is invoked with that exception
(through the dedicated limiter); a truthy handled signal suppresses the
exception, a falsy signal re-raises the original unchanged after the exit
step, and an exception raised by the exit step itself supersedes the
original and is what the caller observes. -/
theorem C1_protected_region_exception_policy {α : Type} (cm : SyncCM α)
    (body : α → BodyOutcome) (v : α) (e : Exc)
    (henter : cm.enter = Except.ok v) (hbody : body v = BodyOutcome.raises e)
    (hexc : e.isException = true) :
    Event.exitStep (ExecCtx.worker (Limiter.capacity 1)) (some e) ∈
      (contextmanager_in_threadpool cm body).2 ∧
    (∀ handled, cm.exit (some e) = ExitOutcome.returns handled →
      (handled = true → (contextmanager_in_threadpool cm body).1 = Except.ok ()) ∧
      (handled = false → (contextmanager_in_threadpool cm body).1 = Except.error e)) ∧
    (∀ e2, cm.exit (some e) = ExitOutcome.raises e2 →
      (contextmanager_in_threadpool cm body).1 = Except.error e2) := by
  refine ⟨?_, ?_, ?_⟩
  · cases hx : cm.exit (some e) with
    | returns handled =>
      cases handled <;>
        simp [contextmanager_in_threadpool, henter, hbody, hexc, hx]
    | raises e2 =>
      simp [contextmanager_in_threadpool, henter, hbody, hexc, hx]
  · intro handled hx
    cases handled <;>
      simp [contextmanager_in_threadpool, henter, hbody, hexc, hx]
  · intro e2 hx
    simp [contextmanager_in_threadpool, henter, hbody, hexc, hx]

/-- C1 witness: a concrete run in which the protected region raises a
`ValueError` and the exit step signals handled, so the caller observes
success and the exit step was invoked with the exception. -/
theorem C1_protected_region_exception_policy_witness :
    Event.exitStep (ExecCtx.worker (Limiter.capacity 1)) (some valueErrorExc) ∈
      (contextmanager_in_threadpool cmSwallow bodyRaisesValueError).2 ∧
    (contextmanager_in_threadpool cmSwallow bodyRaisesValueError).1 = Except.ok () := by
  have h := C1_protected_region_exception_policy cmSwallow bodyRaisesValueError 42
    valueErrorExc rfl rfl rfl
  exact ⟨h.1, (h.2.1 true rfl).1 rfl⟩

/-- C2 counterexample: with an enter step raising `ValueError` and an exit
step returning a falsy signal, the exception does propagate but the exit step
IS called (it appears in the trace), refuting the claim that the exit step is
never called when acquire fails. -/
theorem C2_enter_failure_counterexample :
    hasExitStep (contextmanager_in_threadpool cmEnterFails bodyNormal).2 = true ∧
    (contextmanager_in_threadpool cmEnterFails bodyNormal).1 = Except.error valueErrorExc := by
  exact ⟨rfl, rfl⟩

/-- C2 amended: when the acquire (enter) step raises an `Exception`-class
exception, the exception is routed to the exit step, which IS invoked with
the exception info through the dedicated limiter; the original exception then
propagates to the caller if the exit step returns a falsy handled signal; if
the exit step returns a truthy signal the generator never yields and the
caller instead observes the `RuntimeError` raised by the context-manager
machinery; if the exit step raises, that exception propagates. -/
theorem C2_enter_failure_amended {α : Type} (cm : SyncCM α) (body : α → BodyOutcome)
    (e : Exc) (henter : cm.enter = Except.error e) (hexc : e.isException = true) :
    Event.exitStep (ExecCtx.worker (Limiter.capacity 1)) (some e) ∈
      (contextmanager_in_threadpool cm body).2 ∧
    (∀ handled, cm.exit (some e) = ExitOutcome.returns handled →
      (handled = false → (contextmanager_in_threadpool cm body).1 = Except.error e) ∧
      (handled = true →
        (contextmanager_in_threadpool cm body).1 = Except.error runtimeErrorDidNotYield)) ∧
    (∀ e2, cm.exit (some e) = ExitOutcome.raises e2 →
      (contextmanager_in_threadpool cm body).1 = Except.error e2) := by
  refine ⟨?_, ?_, ?_⟩
  · cases hx : cm.exit (some e) with
    | returns handled =>
      cases handled <;>
        simp [contextmanager_in_threadpool, henter, hexc, hx]
    | raises e2 =>
      simp [contextmanager_in_threadpool, henter, hexc, hx]
  · intro handled hx
    cases handled <;>
      simp [contextmanager_in_threadpool, henter, hexc, hx]
  · intro e2 hx
    simp [contextmanager_in_threadpool, henter, hexc, hx]

/-- C2 witness: the amended behaviour at the concrete failing-enter context
manager — the exit step is in the trace and the original `ValueError`
propagates since the exit step did not suppress it. -/
theorem C2_enter_failure_amended_witness :
    Event.exitStep (ExecCtx.worker (Limiter.capacity 1)) (some valueErrorExc) ∈
      (contextmanager_in_threadpool cmEnterFails bodyNormal).2 ∧
    (contextmanager_in_threadpool cmEnterFails bodyNormal).1 = Except.error valueErrorExc := by
  have h := C2_enter_failure_amended cmEnterFails bodyNormal valueErrorExc rfl rfl
  exact ⟨h.1, (h.2.1 false rfl).1 rfl⟩

/-- C3: in every run, the enter step goes through the worker offload bridge
on the general pool (default limiter) and the exit step goes through the
worker offload bridge on the freshly created dedicated `CapacityLimiter(1)`,
which is a distinct pool segment from the general one of capacity `1 ≥ 1`. -/
theorem C3_enter_exit_offloaded {α : Type} (cm : SyncCM α) (body : α → BodyOutcome) :
    ((contextmanager_in_threadpool cm body).2.all fun ev =>
      match ev with
      | Event.enterStep ctx => ctx == ExecCtx.worker Limiter.default
      | Event.protectedRegion _ => true
      | Event.exitStep ctx _ => ctx == ExecCtx.worker (Limiter.capacity 1)) = true ∧
    Limiter.capacity 1 ≠ Limiter.default ∧ 1 ≤ 1 := by
  refine ⟨?_, by decide, Nat.le_refl 1⟩
  cases henter : cm.enter with
  | error e =>
    cases hexc : e.isException with
    | false => simp [contextmanager_in_threadpool, henter, hexc, runInThreadpoolCtx]
    | true =>
      cases hx : cm.exit (some e) with
      | returns handled =>
        cases handled <;>
          simp [contextmanager_in_threadpool, henter, hexc, hx, runInThreadpoolCtx]
      | raises e2 =>
        simp [contextmanager_in_threadpool, henter, hexc, hx, runInThreadpoolCtx]
  | ok v =>
    cases hbody : body v with
    | normal =>
      cases hx : cm.exit none with
      | returns handled =>
        simp [contextmanager_in_threadpool, henter, hbody, hx, runInThreadpoolCtx]
      | raises e2 =>
        simp [contextmanager_in_threadpool, henter, hbody, hx, runInThreadpoolCtx]
    | raises e =>
      cases hexc : e.isException with
      | false => simp [contextmanager_in_threadpool, henter, hbody, hexc, runInThreadpoolCtx]
      | true =>
        cases hx : cm.exit (some e) with
        | returns handled =>
          cases handled <;>
            simp [contextmanager_in_threadpool, henter, hbody, hexc, hx, runInThreadpoolCtx]
        | raises e2 =>
          simp [contextmanager_in_threadpool, henter, hbody, hexc, hx, runInThreadpoolCtx]

/-- C6 counterexample: after a successful acquire, a cancellation
(`BaseException`, not an `Exception`) delivered in the protected region
propagates without the exit step ever running — the trace contains no exit
event — so the release step is not run on every exit path. -/
theorem C6_release_counterexample :
    cmPlain.enter = Except.ok 7 ∧
    hasExitStep (contextmanager_in_threadpool cmPlain bodyCancelled).2 = false ∧
    (contextmanager_in_threadpool cmPlain bodyCancelled).1 = Except.error cancelledExc := by
  exact ⟨rfl, rfl, rfl⟩

/-- C6 amended: after a successful acquire, the release (exit) step runs when
the protected region completes normally and when it raises an
`Exception`-class exception; a `BaseException` such as a cancellation thrown
into the protected region propagates without the release step running. -/
theorem C6_release_after_acquire_amended {α : Type} (cm : SyncCM α)
    (body : α → BodyOutcome) (v : α) (henter : cm.enter = Except.ok v)
    (hbody : body v = BodyOutcome.normal ∨
      ∃ e, body v = BodyOutcome.raises e ∧ e.isException = true) :
    hasExitStep (contextmanager_in_threadpool cm body).2 = true := by
  rcases hbody with hnorm | ⟨e, hraise, hexc⟩
  · cases hx : cm.exit none with
    | returns handled =>
      simp [contextmanager_in_threadpool, hasExitStep, henter, hnorm, hx]
    | raises e2 =>
      simp [contextmanager_in_threadpool, hasExitStep, henter, hnorm, hx]
  · cases hx : cm.exit (some e) with
    | returns handled =>
      cases handled <;>
        simp [contextmanager_in_threadpool, hasExitStep, henter, hraise, hexc, hx]
    | raises e2 =>
      simp [contextmanager_in_threadpool, hasExitStep, henter, hraise, hexc, hx]

/-- C6 witness: with a successful acquire and a normally completing protected
region, the exit step appears in the trace. -/
theorem C6_release_after_acquire_amended_witness :
    hasExitStep (contextmanager_in_threadpool cmPlain bodyNormal).2 = true := by
  exact C6_release_after_acquire_amended cmPlain bodyNormal 7 rfl (Or.inl rfl)

/-- C4: `run_async` dispatches every callable to exactly one path — directly
awaited iff the callable is classified as a coroutine callable, through the
worker thread pool otherwise — and on both paths the callable is applied to
the given positional and keyword arguments, its result returned and its
exception propagated unchanged. -/
theorem C4_run_async_dispatch {α β : Type} (c : Invocable α β) (args : List α)
    (kwargs : List (String × α)) :
    ((run_async c args kwargs).1 = DispatchPath.direct ↔
      is_coroutine_callable c.cls = true) ∧
    ((run_async c args kwargs).1 = DispatchPath.threadpool ↔
      is_coroutine_callable c.cls = false) ∧
    (run_async c args kwargs).2 = c.behavior args kwargs := by
  cases h : is_coroutine_callable c.cls <;>
    simp [run_async, run_in_threadpool, h]

/-- A class object used as a callable: `inspect.isclass` is true, and its
instances would have an asynchronous `__call__`. -/
def classCallable : PyCallable :=
  { isClass := true
    isCoroutineFunction := false
    isGeneratorFunction := false
    isAsyncGenFunction := false
    dunderCallIsCoroutineFunction := true
    dunderCallIsGeneratorFunction := false
    dunderCallIsAsyncGenFunction := false }

/-- The class callable of `classCallable` paired with a behaviour. -/
def classInvocable : Invocable Nat Nat :=
  { cls := classCallable, behavior := fun _ _ => Except.ok 0 }

/-- C9: a class object is never classified as a coroutine callable — the
`inspect.isclass` guard returns `False` before the `__call__` attribute is
consulted — so `run_async` always sends a class through the worker thread
pool. -/
theorem C9_class_never_coroutine {α β : Type} (c : Invocable α β) (args : List α)
    (kwargs : List (String × α)) (h : c.cls.isClass = true) :
    is_coroutine_callable c.cls = false ∧
    (run_async c args kwargs).1 = DispatchPath.threadpool := by
  have hc : is_coroutine_callable c.cls = false := by
    simp [is_coroutine_callable, h]
  exact ⟨hc, by simp [run_async, hc]⟩

/-- C9 witness: a concrete class object with a coroutine `__call__` is still
classified non-coroutine and dispatched to the thread pool. -/
theorem C9_class_never_coroutine_witness :
    classInvocable.cls.isClass = true ∧
    is_coroutine_callable classInvocable.cls = false ∧
    (run_async classInvocable [] []).1 = DispatchPath.threadpool := by
  have h := C9_class_never_coroutine classInvocable [] [] rfl
  exact ⟨rfl, h.1, h.2⟩

/-- A blocking-generator resource callable: `inspect.isgeneratorfunction` is
true of it. -/
def genCallable : PyCallable :=
  { isClass := false
    isCoroutineFunction := false
    isGeneratorFunction := true
    isAsyncGenFunction := false
    dunderCallIsCoroutineFunction := false
    dunderCallIsGeneratorFunction := false
    dunderCallIsAsyncGenFunction := false }

/-- An asynchronous-generator resource callable. -/
def asyncGenCallable : PyCallable :=
  { isClass := false
    isCoroutineFunction := false
    isGeneratorFunction := false
    isAsyncGenFunction := true
    dunderCallIsCoroutineFunction := false
    dunderCallIsGeneratorFunction := false
    dunderCallIsAsyncGenFunction := false }

/-- C5 counterexample: solving a blocking-generator resource asynchronously
with the non-empty positional argument list `[1]` invokes the underlying
callable with NO positional arguments (`contextmanager(call)(**sub_values)`
drops `sub_args`), so the callable is not invoked with both the supplied
positional and keyword arguments. -/
theorem C5_generator_args_counterexample :
    solve_generator_async [1] ([] : List (String × Nat)) genCallable =
      some { args := [], kwargs := [] } ∧
    ([] : List Nat) ≠ [1] := by
  exact ⟨rfl, by decide⟩

/-- C5 amended: the synchronous solver and the asynchronous-generator path of
the asynchronous solver invoke the underlying callable with both the supplied
positional and keyword arguments, but the blocking-generator path of the
asynchronous solver invokes it with the keyword arguments only, discarding
the positional arguments. -/
theorem C5_generator_args_amended {α : Type} (sub_args : List α)
    (sub_values : List (String × α)) (call : PyCallable) :
    (is_gen_callable call = true →
      solve_generator_async sub_args sub_values call =
        some { args := [], kwargs := sub_values }) ∧
    (is_gen_callable call = false → is_async_gen_callable call = true →
      solve_generator_async sub_args sub_values call =
        some { args := sub_args, kwargs := sub_values }) ∧
    solve_generator_sync sub_args sub_values call =
      { args := sub_args, kwargs := sub_values } := by
  refine ⟨fun hg => ?_, fun hg ha => ?_, rfl⟩
  · simp [solve_generator_async, hg]
  · simp [solve_generator_async, hg, ha]

/-- C5 witness: concrete runs of both solvers on a blocking generator and an
async generator with positional argument `[5]` and keyword argument `k = 9`. -/
theorem C5_generator_args_amended_witness :
    solve_generator_async [5] [("k", 9)] genCallable =
      some { args := [], kwargs := [("k", 9)] } ∧
    solve_generator_async [5] [("k", 9)] asyncGenCallable =
      some { args := [5], kwargs := [("k", 9)] } ∧
    solve_generator_sync [5] [("k", 9)] genCallable =
      { args := [5], kwargs := [("k", 9)] } := by
  have h1 := C5_generator_args_amended [5] [("k", 9)] genCallable
  have h2 := C5_generator_args_amended [5] [("k", 9)] asyncGenCallable
  exact ⟨h1.1 rfl, h2.2.1 rfl rfl, h1.2.2⟩

/-- A frame of this core's own internals: the module is installed at
`pydantic_ai/_depends/utils.py`, whose path does not contain the substring
`fast_depends` that the source tests for; its locals hold this module's own
variable names. Innermost frame of the stack below. -/
def internalFrame : Frame :=
  { filename := "/site-packages/pydantic_ai/_depends/utils.py"
    locals := [("signature", Ann.direct "internal_signature_object"),
               ("call", Ann.direct "internal_call_object")] }

/-- The user frame that called into signature resolution, binding its own
`signature` and a locally defined type `MyType`. -/
def callerFrame : Frame :=
  { filename := "/app/user_code.py"
    locals := [("signature", Ann.direct "user_signature"),
               ("MyType", Ann.direct "int")] }

/-- C7: the source skips a frame only when its code filename contains the
substring `fast_depends`, but this core's own files live under
`pydantic_ai/_depends/`, so on the concrete stack
`[internalFrame, callerFrame]` the internal frame — which belongs to this
core's own internals by origin — is NOT skipped: its local `signature`
binding lands in the collected binding set, and being innermost it even
shadows the caller's own `signature` binding. -/
theorem C7_internal_frames_not_skipped :
    belongs_to_core internalFrame = true ∧
    strContains internalFrame.filename "fast_depends" = false ∧
    lookupB (collect_outer_stack_locals [internalFrame, callerFrame]) "signature" =
      some (Ann.direct "internal_signature_object") ∧
    Ann.direct "internal_signature_object" ≠ Ann.direct "user_signature" := by
  exact ⟨rfl, rfl, rfl, by decide⟩

/-- Resolving a deferred reference that a local binding maps to a direct type
yields that direct type without touching the heap (lenient `eval_type` with
`locals` taking precedence over `globalns`). -/
theorem getTypedAnn_deferred_local (fuel : Nat) (nm ty : String)
    (globalns localns : Bindings) (h : Heap)
    (hb : lookupB localns nm = some (Ann.direct ty)) :
    getTypedAnn (fuel + 1) (Ann.deferred nm) globalns localns h = (Ann.direct ty, h) := by
  simp [getTypedAnn, evalName, hb]

/-- Resolving a direct (already resolved) type is the identity. -/
theorem getTypedAnn_direct (fuel : Nat) (ty : String) (globalns localns : Bindings)
    (h : Heap) :
    getTypedAnn (fuel + 1) (Ann.direct ty) globalns localns h = (Ann.direct ty, h) := by
  simp [getTypedAnn]

/-- C8: round-trip of deferred annotations — for a callable whose only
parameter is annotated with a deferred (string) reference `nm` that the
Stack-Local Binding Set collected at the resolution call site maps to the
type `ty`, `get_evaluated_signature` produces the same resolved signature as
for the equivalent callable annotated directly with `ty`. -/
theorem C8_deferred_annotation_roundtrip (fuel : Nat) (stack : List Frame)
    (nm pname : String) (kind : Nat) (dflt : Option Ann) (ty : String)
    (globalns : Bindings) (retA : Ann) (h : Heap)
    (hbind : lookupB (collect_outer_stack_locals stack) nm = some (Ann.direct ty)) :
    (get_evaluated_signature (fuel + 1) stack
      { params := [{ name := pname, kind := kind, dflt := dflt, ann := Ann.deferred nm }]
        retAnn := retA } globalns h).1 =
    (get_evaluated_signature (fuel + 1) stack
      { params := [{ name := pname, kind := kind, dflt := dflt, ann := Ann.direct ty }]
        retAnn := retA } globalns h).1 := by
  have hdef := getTypedAnn_deferred_local fuel nm ty globalns
    (collect_outer_stack_locals stack) h hbind
  have hdir := getTypedAnn_direct fuel ty globalns (collect_outer_stack_locals stack) h
  simp [get_evaluated_signature, resolveParams, hdef, hdir]

/-- The user frame for the C8 witness: the type `MyType` is bound only in
this enclosing frame, visible at the resolution call site. -/
def userFrameWitness : Frame :=
  { filename := "/app/user_service.py", locals := [("MyType", Ann.direct "int")] }

/-- C8 witness: on the concrete one-frame stack binding `MyType` to `int`, a
parameter annotated with the string `MyType` resolves to the same signature
as one annotated directly with `int`. -/
theorem C8_deferred_annotation_roundtrip_witness :
    lookupB (collect_outer_stack_locals [userFrameWitness]) "MyType" =
      some (Ann.direct "int") ∧
    (get_evaluated_signature 1 [userFrameWitness]
      { params := [{ name := "x", kind := 1, dflt := none, ann := Ann.deferred "MyType" }]
        retAnn := Ann.direct "NoneType" } [] []).1 =
    (get_evaluated_signature 1 [userFrameWitness]
      { params := [{ name := "x", kind := 1, dflt := none, ann := Ann.direct "int" }]
        retAnn := Ann.direct "NoneType" } [] []).1 := by
  exact ⟨rfl, C8_deferred_annotation_roundtrip 0 [userFrameWitness] "MyType" "x" 1 none
    "int" [] (Ann.direct "NoneType") [] rfl⟩

/-- C10: `get_typed_annotation` on an `Annotated[...]` object resolves the
object's base and metadata, overwrites the object's `__origin__` and
`__metadata__` in place on the heap, and returns the very same object
reference rather than a fresh annotation. -/
theorem C10_annotated_mutated_in_place (fuel : Nat) (id : Nat) (obj : AnnObj)
    (globalns localns : Bindings) (h : Heap) (hobj : heapGet h id = some obj) :
    (getTypedAnn (fuel + 1) (Ann.annotatedRef id) globalns localns h).1 =
      Ann.annotatedRef id ∧
    ∃ o2 meta2 h2,
      solveAnnList fuel (obj.origin :: obj.metadata) globalns localns h =
        (o2 :: meta2, h2) ∧
      (getTypedAnn (fuel + 1) (Ann.annotatedRef id) globalns localns h).2 =
        heapSet h2 id { origin := o2, metadata := meta2 } := by
  refine ⟨?_, (getTypedAnn fuel obj.origin globalns localns h).1,
    (solveListWith (fun x hh => getTypedAnn fuel x globalns localns hh) obj.metadata
      (getTypedAnn fuel obj.origin globalns localns h).2).1,
    (solveListWith (fun x hh => getTypedAnn fuel x globalns localns hh) obj.metadata
      (getTypedAnn fuel obj.origin globalns localns h).2).2, ?_, ?_⟩ <;>
    simp [getTypedAnn, solveAnnList, solveListWith, hobj]

/-- The heap of the C10 witness: one `Annotated` object at address `0` whose
base is the deferred reference `X` and whose metadata is one entry. -/
def annHeap0 : Heap :=
  [(0, { origin := Ann.deferred "X", metadata := [Ann.direct "meta"] })]

/-- Locals of the C10 witness, binding `X` to `int`. -/
def annLocals0 : Bindings := [("X", Ann.direct "int")]

/-- C10 witness: resolving the `Annotated` object at address `0` returns the
same reference and overwrites the stored object — the heap after the call
holds the resolved base `int` in place of the deferred `X`, differing from
the original heap. -/
theorem C10_annotated_mutated_in_place_witness :
    heapGet annHeap0 0 = some { origin := Ann.deferred "X", metadata := [Ann.direct "meta"] } ∧
    (getTypedAnn 2 (Ann.annotatedRef 0) [] annLocals0 annHeap0).1 = Ann.annotatedRef 0 ∧
    (getTypedAnn 2 (Ann.annotatedRef 0) [] annLocals0 annHeap0).2 =
      [(0, { origin := Ann.direct "int", metadata := [Ann.direct "meta"] })] ∧
    (getTypedAnn 2 (Ann.annotatedRef 0) [] annLocals0 annHeap0).2 ≠ annHeap0 := by
  have h := C10_annotated_mutated_in_place 1 0
    { origin := Ann.deferred "X", metadata := [Ann.direct "meta"] } [] annLocals0 annHeap0 rfl
  exact ⟨rfl, h.1, by decide, by decide⟩
